import Mathlib

/-!
Verification of the AirFuse orchestration script `src/airfuse/pm.py` against its
natural-language specification.

The script is embedded shallowly:

* A pandas `DataFrame` is a list of rows; a row is an association list from
  column name to `Option ℚ`, where `none` models a missing column or a NaN
  value (pandas treats the two interchangeably for the operations used here).
* The numeric dtype is modelled by `ℚ`.  The only quantity the script derives
  with a square root, `pamindist = ((dx**2 + dy**2)**.5)/2` (pm.py:84-86), has
  no exact rational representative, so the pipeline takes `pamindist` as an
  input and theorems characterise it exactly through its square
  (`pamindistSq`).
* The modules `airfuse.models` (`applyfusion`, `get_fusions`) and
  `airfuse.ensemble` (`distweight`) are part of this repository but are not
  under `src/`; they are modelled from the spec (see the doc comments marked
  `Modelled from the spec:`).  `pm.py` itself is the authority for everything
  it shows: in particular it discards `distweight`'s return value yet writes
  `andf`/`tgtdf` expecting the fused columns, so both `applyfusion` and
  `distweight` enrich the tables they are given; the embedding threads the
  enriched table explicitly.
-/

namespace Airfuse

/-- A table row: column names mapped to values; `none` models NaN/missing. -/
abbrev Row := List (String × Option ℚ)

/-- A table (pandas DataFrame): a list of rows. -/
abbrev Df := List Row

/-- Column read `r[k]`: first binding wins; absent column reads as `none`. -/
def getCol (r : Row) (k : String) : Option ℚ :=
  match r with
  | [] => none
  | (k', v) :: rest => if k = k' then v else getCol rest k

/-- Column write `r[k] = v`, shadowing any previous binding. -/
def setCol (r : Row) (k : String) (v : Option ℚ) : Row := (k, v) :: r

/-- Modelled from the spec: one interpolation engine from `airfuse.models`
(not under `src/`).  Spec §4.1-4.4: it interpolates the residual field of a
reference table at a query row and corrects the model value there (`est`), and
it exposes the distance from the query to the nearest reference actually used
(`nndist`, spec §4.5).  The exact kernel (fixed-k IDW or Delaunay VNA) is
irrelevant to the orchestration claims, so the engine is a parameter of the
embedding. -/
structure FusionModel where
  est : String → String → Df → Row → Option ℚ
  nndist : Df → Row → Option ℚ

/-- The reference table with row `i` removed: used for leave-one-out so that a
query point's own observation never serves as its reference (spec §4.5). -/
def dropNth (df : Df) (i : Nat) : Df :=
  df.enum.filterMap fun p => if p.1 = i then none else some p.2

/-- Modelled from the spec (§4.5): the leave-one-out enrichment of one
observation row.  Writes the estimate `LOO_<pfx>`, the nearest-reference
distance `LOO_<pfx>_DIST` and the error `LOO_<pfx>_ERR = estimate - observed`. -/
def looEnrich (fm : FusionModel) (pfx obskey modkey : String) (refs : Df)
    (r : Row) : Row :=
  let e := fm.est obskey modkey refs r
  let err := match e, getCol r obskey with
    | some ev, some ov => some (ev - ov)
    | _, _ => none
  setCol (setCol (setCol r ("LOO_" ++ pfx) e)
    ("LOO_" ++ pfx ++ "_DIST") (fm.nndist refs r))
    ("LOO_" ++ pfx ++ "_ERR") err

/-- Modelled from the spec (§4.3-4.4, §6): enrichment of one target-grid row
with the interpolated estimate `<pfx>` and nearest-reference distance
`<pfx>_DIST`. -/
def tgtEnrich (fm : FusionModel) (pfx obskey modkey : String) (refs : Df)
    (r : Row) : Row :=
  setCol (setCol r pfx (fm.est obskey modkey refs r))
    (pfx ++ "_DIST") (fm.nndist refs r)

/-- Modelled from the spec: `airfuse.models.applyfusion` (not under `src/`),
as called at pm.py:106-109 and pm.py:117-120.  For the observation table it
computes leave-one-out columns, each row's estimate using all *other* rows of
the same table as references (§4.5); when a target table is given it evaluates
the fusion with the full observation table as references; when an extra
evaluation table `loodf` is given (pm.py passes `loodf=andf` in the PurpleAir
loop) its rows are enriched the same way, with the observation table as
references.  `pm.py` relies on the tables being enriched in place (returns are
unused there); the embedding returns the enriched tables. -/
def applyfusion (fm : FusionModel) (pfx : String) (obsdf : Df)
    (tgtdf loodf : Option Df) (obskey modkey : String) :
    Df × Option Df × Option Df :=
  (obsdf.enum.map fun p => looEnrich fm pfx obskey modkey (dropNth obsdf p.1) p.2,
   tgtdf.map fun t => t.map (tgtEnrich fm pfx obskey modkey obsdf),
   loodf.map fun t => t.map (looEnrich fm pfx obskey modkey obsdf))

/-- The per-row output of the ensemble blend: the two network weights and the
fused value. -/
structure BlendOut where
  wA : ℚ
  wB : ℚ
  fused : Option ℚ

/-- Modelled from the spec: the per-row blend of `airfuse.ensemble.distweight`
(not under `src/`), spec §4.6.  Weights are proportional to
`distance ^ power`, normalised to sum to one.  When network B has no valid
estimate, the configured constant fallback weight is substituted for B instead
of renormalising A's weight to 1, and B's slot degrades to the pass-through of
the model value (spec §7: a per-point interpolation failure degrades to "no
correction", i.e. the uncorrected model value).  Distance floors are applied by
the caller (pm.py:126, pm.py:152), so none is applied here. -/
def distweightRow (p : ℤ) (fb : ℚ) (dA dB vA vB m : Option ℚ) : BlendOut :=
  match vB with
  | none =>
      { wA := 1 - fb, wB := fb,
        fused := match vA, m with
          | some a, some mv => some ((1 - fb) * a + fb * mv)
          | _, _ => none }
  | some b =>
      match dA, dB, vA with
      | some da, some db, some a =>
          let sw := da ^ p + db ^ p
          { wA := da ^ p / sw, wB := db ^ p / sw,
            fused := some ((da ^ p / sw) * a + (db ^ p / sw) * b) }
      | _, _, _ => { wA := 0, wB := 0, fused := none }

/-- Modelled from the spec: `airfuse.ensemble.distweight` (not under `src/`),
as called at pm.py:130-145 and pm.py:156-166 with two distance keys, two value
keys, the model column, an output key, `power=-2`, `add=True` (the additive
weighted combination of §4.6, the only mode the spec describes) and the
network-B fallback weight 0.25 passed as the keyword named after B's value
key.  It writes the fused value into column `ykey`; `pm.py` relies on the
table being enriched in place (its return value is discarded), so the
embedding returns the enriched table. -/
def distweight (df : Df) (dkA dkB vkA vkB modkey ykey : String) (p : ℤ)
    (fb : ℚ) : Df :=
  df.map fun r =>
    setCol r ykey (distweightRow p fb (getCol r dkA) (getCol r dkB)
      (getCol r vkA) (getCol r vkB) (getCol r modkey)).fused

/-- `np.diff(v).mean()` (pm.py:84-85): mean spacing of a coordinate vector. -/
def meanDiff (l : List ℚ) : ℚ :=
  let d := (l.zip l.tail).map fun p => p.2 - p.1
  d.sum / (d.length : ℚ)

/-- The model dataset `pm` as far as pm.py uses it: its coordinate vectors
`pm.x`, `pm.y`, its variable name `pm.name`, and
`pm.to_dataframe().reset_index()` (pm.py:99). -/
structure Grid where
  xs : List ℚ
  ys : List ℚ
  name : String
  df : Df

/-- The exact square of pm.py:84-86's floor distance
`pamindist = ((dx**2 + dy**2)**.5)/2`: since the square root of a rational is
in general irrational, the floor itself enters the pipeline as an input and is
pinned down by `0 ≤ pamindist` and `pamindist ^ 2 = pamindistSq g`. -/
def pamindistSq (g : Grid) : ℚ :=
  ((meanDiff g.xs) ^ 2 + (meanDiff g.ys) ^ 2) / 4

/-- pm.py:99-100: the target table is the model DataFrame filtered by the
self-equality query `f'{pm.name} == {pm.name}'`; in pandas `NaN == NaN` is
false, so exactly the rows with a non-NaN model value survive. -/
def buildTgt (g : Grid) : Df :=
  g.df.filter fun r => (getCol r g.name).isSome

/-- Modelled from the spec: the mapping returned by
`airfuse.models.get_fusions` (not under `src/`).  pm.py reads columns for the
variants IDW, VNA, aIDW, aVNA and eVNA (pm.py:23-28, pm.py:126-166), so the
mapping is modelled as those five named engines, supplied as parameters. -/
structure Fusions where
  idw : FusionModel
  vna : FusionModel
  aidw : FusionModel
  avna : FusionModel
  evna : FusionModel

/-- Modelled from the spec: the ordered (name, engine) items of the fusion
mapping iterated at pm.py:103 and pm.py:114. -/
def get_fusions (fs : Fusions) : List (String × FusionModel) :=
  [("IDW", fs.idw), ("VNA", fs.vna), ("aIDW", fs.aidw), ("aVNA", fs.avna),
   ("eVNA", fs.evna)]

/-- pm.py:103-111: apply every fusion variant to the AirNow observations,
enriching `andf` (leave-one-out) and, when present, the target table. -/
def anPass (fs : Fusions) (andf : Df) (tgtdf : Option Df)
    (obskey modkey : String) : Df × Option Df :=
  (get_fusions fs).foldl
    (fun st mf =>
      let r := applyfusion mf.2 (mf.1 ++ "_AN") st.1 st.2 none obskey modkey
      (r.1, r.2.1))
    (andf, tgtdf)

/-- pm.py:113-122: apply every fusion variant to the PurpleAir observations,
enriching `padf` (leave-one-out), the target table, and — through
`loodf=andf` — the AirNow table with PurpleAir-based estimates. -/
def paPass (fs : Fusions) (padf : Df) (tgtdf : Option Df) (andf : Df)
    (obskey modkey : String) : Df × Option Df × Df :=
  (get_fusions fs).foldl
    (fun st mf =>
      let r := applyfusion mf.2 (mf.1 ++ "_PA") st.1 st.2.1 (some st.2.2)
        obskey modkey
      (r.1, r.2.1, match r.2.2 with | some a => a | none => st.2.2))
    (padf, tgtdf, andf)

/-- pm.py:126 and pm.py:152: `df[adjk] = np.maximum(df[dk], pamindist)` —
the PurpleAir nearest distance is floored at `pamindist` (NaN propagates). -/
def adjustPA (dk adjk : String) (pamindist : ℚ) (df : Df) : Df :=
  df.map fun r => setCol r adjk ((getCol r dk).map fun d => max d pamindist)

/-- pm.py:127-145: the three ensemble blends over the leave-one-out table,
producing `FUSED_aVNA`, `FUSED_eVNA` and `FUSED_aIDW` from the VNA nearest
distances `LOO_VNA_AN_DIST` and the floored `LOO_VNA_PA_DIST_ADJ`. -/
def looBlends (model : String) (df : Df) : Df :=
  let d1 := distweight df "LOO_VNA_AN_DIST" "LOO_VNA_PA_DIST_ADJ"
    "LOO_aVNA_AN" "LOO_aVNA_PA" model "FUSED_aVNA" (-2) (1/4)
  let d2 := distweight d1 "LOO_VNA_AN_DIST" "LOO_VNA_PA_DIST_ADJ"
    "LOO_eVNA_AN" "LOO_eVNA_PA" model "FUSED_eVNA" (-2) (1/4)
  distweight d2 "LOO_VNA_AN_DIST" "LOO_VNA_PA_DIST_ADJ"
    "LOO_aIDW_AN" "LOO_aIDW_PA" model "FUSED_aIDW" (-2) (1/4)

/-- pm.py:151-166: the full-grid pass — floor the PurpleAir distance on the
target table, then blend `FUSED_aVNA` and `FUSED_aIDW` from `VNA_AN_DIST` and
the floored `VNA_PA_DIST_ADJ`.  (No eVNA blend is performed here.) -/
def tgtBlends (model : String) (pamindist : ℚ) (df : Df) : Df :=
  let d0 := adjustPA "VNA_PA_DIST" "VNA_PA_DIST_ADJ" pamindist df
  let d1 := distweight d0 "VNA_AN_DIST" "VNA_PA_DIST_ADJ"
    "aVNA_AN" "aVNA_PA" model "FUSED_aVNA" (-2) (1/4)
  distweight d1 "VNA_AN_DIST" "VNA_PA_DIST_ADJ"
    "aIDW_AN" "aIDW_PA" model "FUSED_aIDW" (-2) (1/4)

/-- What the script persists: the AirNow CV table (pm.py:147), the PurpleAir
CV table (pm.py:148) and, unless `cv_only`, the fused target surface
(pm.py:168-179). -/
structure Outputs where
  ancsv : Df
  pacsv : Df
  fused : Option Df

/-- pm.py:96-100: the target table is `None` in cv_only mode, else the
NaN-filtered model grid table. -/
def pipelineTgt (g : Grid) (cv_only : Bool) : Option Df :=
  if cv_only then none else some (buildTgt g)

/-- pm.py:96-122: the target construction followed by both observation
passes, yielding the enriched `(padf, tgtdf, andf)`. -/
def passes (fs : Fusions) (g : Grid) (obskey : String) (andf padf : Df)
    (cv_only : Bool) : Df × Option Df × Df :=
  let an1 := anPass fs andf (pipelineTgt g cv_only) obskey g.name
  paPass fs padf an1.2 an1.1 obskey g.name

/-- pm.py:124-145: the AirNow CV table as written at pm.py:147 — the enriched
`andf` after the floor adjustment and the three LOO blends. -/
def pipelineAncsv (fs : Fusions) (g : Grid) (pamindist : ℚ)
    (model obskey : String) (andf padf : Df) (cv_only : Bool) : Df :=
  looBlends model (adjustPA "LOO_VNA_PA_DIST" "LOO_VNA_PA_DIST_ADJ" pamindist
    (passes fs g obskey andf padf cv_only).2.2)

/-- pm.py:148: the PurpleAir CV table — the enriched `padf`. -/
def pipelinePacsv (fs : Fusions) (g : Grid) (obskey : String)
    (andf padf : Df) (cv_only : Bool) : Df :=
  (passes fs g obskey andf padf cv_only).1

/-- pm.py:150-179: the fused target surface — absent in cv_only mode, else
the target table after the full-grid floor adjustment and blends. -/
def pipelineFused (fs : Fusions) (g : Grid) (pamindist : ℚ)
    (model obskey : String) (andf padf : Df) (cv_only : Bool) : Option Df :=
  if cv_only then none
  else ((passes fs g obskey andf padf cv_only).2.1).map
    (tgtBlends model pamindist)

/-- pm.py:96-179: the whole computation after the model and the paired
observation tables are in hand.  `model` is `args.model.upper()` (the modkey
passed to `distweight`), `g.name` is `pm.name` (the modkey passed to
`applyfusion` and the query column of pm.py:100), and `pamindist` is the floor
distance of pm.py:84-86, characterised by `pamindistSq`. -/
def runPipeline (fs : Fusions) (g : Grid) (pamindist : ℚ)
    (model obskey : String) (andf padf : Df) (cv_only : Bool) : Outputs :=
  { ancsv := pipelineAncsv fs g pamindist model obskey andf padf cv_only,
    pacsv := pipelinePacsv fs g obskey andf padf cv_only,
    fused := pipelineFused fs g pamindist model obskey andf padf cv_only }

/-- pm.py:56-60: the three output paths, in the order of the existence check
at pm.py:64. -/
def outPaths (stem fmt : String) : List String :=
  [stem ++ "_PurpleAir_CV.csv", stem ++ "_AirNow_CV.csv", stem ++ "." ++ fmt]

/-- pm.py:63-70 followed by the pipeline: if any output path already exists
and `-O` was not given, the script raises `IOError` naming the existing paths
before any model retrieval or computation; otherwise it runs. -/
def runScript (existing : List String) (stem fmt : String) (overwrite : Bool)
    (fs : Fusions) (g : Grid) (pamindist : ℚ) (model obskey : String)
    (andf padf : Df) (cv_only : Bool) : Except String Outputs :=
  let found := (outPaths stem fmt).filter fun q => existing.contains q
  if 0 < found.length ∧ overwrite = false then
    Except.error ("Outputs exist; delete or use -O to continue:\n"
      ++ String.intercalate " " found)
  else
    Except.ok (runPipeline fs g pamindist model obskey andf padf cv_only)

/-- The fusion-variant names of the modelled `get_fusions` mapping. -/
def mkeys : List String := ["IDW", "VNA", "aIDW", "aVNA", "eVNA"]

/-- The three leave-one-out columns written for a given variant name. -/
def looKeysOf (pfx : String) : List String :=
  ["LOO_" ++ pfx, "LOO_" ++ pfx ++ "_DIST", "LOO_" ++ pfx ++ "_ERR"]

/-- The columns the AirNow fusion passes (pm.py:103-111) write into `andf`. -/
def anLooCols : List String := mkeys.flatMap fun m => looKeysOf (m ++ "_AN")

/-- Every column written into `andf` after the AirNow passes: by the
PurpleAir passes (pm.py:114-122, via `loodf=andf`), by the floor adjustment
(pm.py:126) and by the three LOO blends (pm.py:130-145). -/
def paPostKeys : List String :=
  (mkeys.flatMap fun m => looKeysOf (m ++ "_PA"))
    ++ ["LOO_VNA_PA_DIST_ADJ", "FUSED_aVNA", "FUSED_eVNA", "FUSED_aIDW"]

/-- A concrete interpolation engine used to evaluate the pipeline on small
inputs: it estimates 1 everywhere and reports nearest distance 2. -/
def cFM : FusionModel := ⟨fun _ _ _ _ => some 1, fun _ _ => some 2⟩

/-- Concrete fusion mapping for evaluation. -/
def cFS : Fusions := ⟨cFM, cFM, cFM, cFM, cFM⟩

/-- Concrete model grid: spacings dx = 3, dy = 4, so the floor distance is
`sqrt(3^2 + 4^2)/2 = 5/2` exactly. -/
def cGrid : Grid := ⟨[0, 3], [0, 4], "NAQFC", [[("NAQFC", some 7)]]⟩

/-- Concrete paired AirNow table (one observation). -/
def cAndf : Df := [[("pm25", some 5), ("NAQFC", some 6)]]

/-- Concrete paired PurpleAir table (one observation). -/
def cPadf : Df := [[("pm25", some 4), ("NAQFC", some 6)]]

/-- Concrete non-CV-only pipeline run on the tables above. -/
def cOut : Outputs := runPipeline cFS cGrid (5/2) "NAQFC" "pm25" cAndf cPadf false

/-- A concrete single-row table carrying the columns the first LOO blend
(pm.py:130-133) reads. -/
def c5df : Df :=
  [[("LOO_VNA_AN_DIST", some 1), ("LOO_VNA_PA_DIST_ADJ", some 2),
    ("LOO_aVNA_AN", some 3), ("LOO_aVNA_PA", some 4), ("NAQFC", some 5)]]

/-- A concrete single-row target table carrying the columns the full-grid
blends (pm.py:151-166) read. -/
def c10df : Df :=
  [[("VNA_AN_DIST", some 1), ("VNA_PA_DIST", some 2), ("aVNA_AN", some 3),
    ("aVNA_PA", some 4), ("aIDW_AN", some 5), ("aIDW_PA", some 6),
    ("NAQFC", some 7)]]

/-! ## Basic lemmas about rows and tables -/

theorem getCol_setCol_same (r : Row) (k : String) (v : Option ℚ) :
    getCol (setCol r k v) k = v := by
  simp [getCol, setCol]

theorem getCol_setCol_ne (r : Row) (k k' : String) (v : Option ℚ)
    (h : k' ≠ k) : getCol (setCol r k v) k' = getCol r k' := by
  simp [getCol, setCol, h]

theorem getCol_setCol (r : Row) (k k' : String) (v : Option ℚ) :
    getCol (setCol r k v) k' = if k' = k then v else getCol r k' := by
  simp [getCol, setCol]

theorem map_getCol_comp (df : Df) (f : Row → Row) (k : String)
    (h : ∀ r, getCol (f r) k = getCol r k) :
    (df.map f).map (fun r => getCol r k) = df.map (fun r => getCol r k) := by
  induction df with
  | nil => rfl
  | cons r rest ih => simp [h, ih]

theorem getCol_looEnrich (fm : FusionModel) (pfx obskey modkey : String)
    (refs : Df) (r : Row) (k : String)
    (h1 : k ≠ "LOO_" ++ pfx ++ "_ERR") (h2 : k ≠ "LOO_" ++ pfx ++ "_DIST")
    (h3 : k ≠ "LOO_" ++ pfx) :
    getCol (looEnrich fm pfx obskey modkey refs r) k = getCol r k := by
  simp only [looEnrich]
  rw [getCol_setCol_ne _ _ _ _ h1, getCol_setCol_ne _ _ _ _ h2,
    getCol_setCol_ne _ _ _ _ h3]

theorem distweight_col (df : Df) (dkA dkB vkA vkB mk yk : String) (p : ℤ)
    (fb : ℚ) (k : String) (h : k ≠ yk) :
    (distweight df dkA dkB vkA vkB mk yk p fb).map (fun r => getCol r k)
      = df.map (fun r => getCol r k) := by
  unfold distweight
  exact map_getCol_comp _ _ _ fun r => getCol_setCol_ne _ _ _ _ h

theorem adjustPA_col (dk adjk : String) (pd : ℚ) (df : Df) (k : String)
    (h : k ≠ adjk) :
    (adjustPA dk adjk pd df).map (fun r => getCol r k)
      = df.map (fun r => getCol r k) := by
  unfold adjustPA
  exact map_getCol_comp _ _ _ fun r => getCol_setCol_ne _ _ _ _ h

theorem looBlends_adjust_floor (model : String) (pd : ℚ) (df : Df) :
    ∀ r' ∈ looBlends model
      (adjustPA "LOO_VNA_PA_DIST" "LOO_VNA_PA_DIST_ADJ" pd df),
      getCol r' "LOO_VNA_PA_DIST_ADJ"
        = (getCol r' "LOO_VNA_PA_DIST").map (fun d => max d pd) ∧
      ∀ d, getCol r' "LOO_VNA_PA_DIST" = some d → d < pd →
        getCol r' "LOO_VNA_PA_DIST_ADJ" = some pd := by
  intro r' hr'
  simp only [looBlends, adjustPA, distweight, List.mem_map] at hr'
  obtain ⟨a, ⟨b, ⟨c, ⟨r0, hr0, rfl⟩, rfl⟩, rfl⟩, rfl⟩ := hr'
  constructor
  · simp only [getCol_setCol]
    simp
  · intro d hd hlt
    simp only [getCol_setCol] at hd ⊢
    simp at hd ⊢
    rw [hd]
    simpa using hlt.le

theorem tgtBlends_floor (model : String) (pd : ℚ) (df : Df) :
    ∀ r' ∈ tgtBlends model pd df,
      getCol r' "VNA_PA_DIST_ADJ"
        = (getCol r' "VNA_PA_DIST").map (fun d => max d pd) ∧
      ∀ d, getCol r' "VNA_PA_DIST" = some d → d < pd →
        getCol r' "VNA_PA_DIST_ADJ" = some pd := by
  intro r' hr'
  simp only [tgtBlends, adjustPA, distweight, List.mem_map] at hr'
  obtain ⟨a, ⟨b, ⟨r0, hr0, rfl⟩, rfl⟩, rfl⟩ := hr'
  constructor
  · simp only [getCol_setCol]
    simp
  · intro d hd hlt
    simp only [getCol_setCol] at hd ⊢
    simp at hd ⊢
    rw [hd]
    simpa using hlt.le

theorem runPipeline_ancsv (fs : Fusions) (g : Grid) (pd : ℚ)
    (model obskey : String) (an pa : Df) (cv : Bool) :
    (runPipeline fs g pd model obskey an pa cv).ancsv
      = pipelineAncsv fs g pd model obskey an pa cv := by
  simp only [runPipeline]

theorem pipelineAncsv_def (fs : Fusions) (g : Grid) (pd : ℚ)
    (model obskey : String) (an pa : Df) (cv : Bool) :
    pipelineAncsv fs g pd model obskey an pa cv
      = looBlends model (adjustPA "LOO_VNA_PA_DIST" "LOO_VNA_PA_DIST_ADJ" pd
          (passes fs g obskey an pa cv).2.2) := by
  simp only [pipelineAncsv]

theorem runPipeline_fused_true (fs : Fusions) (g : Grid) (pd : ℚ)
    (model obskey : String) (an pa : Df) :
    (runPipeline fs g pd model obskey an pa true).fused = none := by
  simp [runPipeline, pipelineFused]

theorem runPipeline_fused_false (fs : Fusions) (g : Grid) (pd : ℚ)
    (model obskey : String) (an pa : Df) :
    (runPipeline fs g pd model obskey an pa false).fused
      = ((passes fs g obskey an pa false).2.1).map (tgtBlends model pd) := by
  simp [runPipeline, pipelineFused]

theorem anPass_fst (fs : Fusions) (an : Df) (t t' : Option Df)
    (o m : String) : (anPass fs an t o m).1 = (anPass fs an t' o m).1 := rfl

theorem paPass_fst (fs : Fusions) (pa : Df) (t t' : Option Df) (an an' : Df)
    (o m : String) :
    (paPass fs pa t an o m).1 = (paPass fs pa t' an' o m).1 := rfl

theorem runPipeline_pacsv (fs : Fusions) (g : Grid) (pd : ℚ)
    (model obskey : String) (an pa : Df) (cv : Bool) :
    (runPipeline fs g pd model obskey an pa cv).pacsv
      = (paPass fs pa none [] obskey g.name).1 := by
  simp only [runPipeline, pipelinePacsv, passes]
  exact paPass_fst fs pa _ none _ [] obskey g.name

theorem anLoo_disjoint : ∀ k ∈ anLooCols, k ∉ paPostKeys := by decide

theorem paPass_andf_col (fs : Fusions) (pa : Df) (t : Option Df) (an : Df)
    (o m : String) (k : String) (hk : k ∉ paPostKeys) :
    ((paPass fs pa t an o m).2.2).map (fun r => getCol r k)
      = an.map (fun r => getCol r k) := by
  have hof : ∀ s, s ∈ paPostKeys → k ≠ s := fun s hs he => hk (he ▸ hs)
  simp only [paPass, get_fusions, List.foldl, applyfusion, Option.map_some']
  rw [map_getCol_comp _ _ _ (fun r => getCol_looEnrich _ _ _ _ _ _ _
        (hof _ (by decide)) (hof _ (by decide)) (hof _ (by decide))),
      map_getCol_comp _ _ _ (fun r => getCol_looEnrich _ _ _ _ _ _ _
        (hof _ (by decide)) (hof _ (by decide)) (hof _ (by decide))),
      map_getCol_comp _ _ _ (fun r => getCol_looEnrich _ _ _ _ _ _ _
        (hof _ (by decide)) (hof _ (by decide)) (hof _ (by decide))),
      map_getCol_comp _ _ _ (fun r => getCol_looEnrich _ _ _ _ _ _ _
        (hof _ (by decide)) (hof _ (by decide)) (hof _ (by decide))),
      map_getCol_comp _ _ _ (fun r => getCol_looEnrich _ _ _ _ _ _ _
        (hof _ (by decide)) (hof _ (by decide)) (hof _ (by decide)))]

theorem runPipeline_ancsv_anpass (fs : Fusions) (g : Grid) (pd : ℚ)
    (model obskey : String) (an pa : Df) (cv : Bool) (k : String)
    (hk : k ∉ paPostKeys) :
    (runPipeline fs g pd model obskey an pa cv).ancsv.map
        (fun r => getCol r k)
      = ((anPass fs an none obskey g.name).1).map (fun r => getCol r k) := by
  have hof : ∀ s, s ∈ paPostKeys → k ≠ s := fun s hs he => hk (he ▸ hs)
  rw [runPipeline_ancsv, pipelineAncsv_def]
  simp only [looBlends]
  rw [distweight_col _ _ _ _ _ _ _ _ _ _ (hof _ (by decide)),
      distweight_col _ _ _ _ _ _ _ _ _ _ (hof _ (by decide)),
      distweight_col _ _ _ _ _ _ _ _ _ _ (hof _ (by decide)),
      adjustPA_col _ _ _ _ _ (hof _ (by decide))]
  simp only [passes]
  rw [paPass_andf_col _ _ _ _ _ _ _ hk]
  rw [anPass_fst fs an (pipelineTgt g cv) none obskey g.name]

/-! ## Claim theorems -/

/-- **C4**: for every row passed to the blend (distances present and positive,
AirNow value present), the two ensemble weights are non-negative and sum to
exactly 1 — hence certainly within 1e-9 of 1.  Holds on both the normal branch
and the fallback branch (PurpleAir estimate missing), for any fallback weight
in [0, 1]; pm.py passes 0.25. -/
theorem blend_weights_sum_one (fb da db a : ℚ) (vB m : Option ℚ)
    (hfb0 : 0 ≤ fb) (hfb1 : fb ≤ 1) (hda : 0 < da) (hdb : 0 < db) :
    0 ≤ (distweightRow (-2) fb (some da) (some db) (some a) vB m).wA ∧
    0 ≤ (distweightRow (-2) fb (some da) (some db) (some a) vB m).wB ∧
    (distweightRow (-2) fb (some da) (some db) (some a) vB m).wA
      + (distweightRow (-2) fb (some da) (some db) (some a) vB m).wB = 1 ∧
    |(distweightRow (-2) fb (some da) (some db) (some a) vB m).wA
      + (distweightRow (-2) fb (some da) (some db) (some a) vB m).wB - 1|
      ≤ 1 / 1000000000 := by
  cases vB with
  | none =>
    simp only [distweightRow]
    refine ⟨by linarith, hfb0, by ring, ?_⟩
    have h1 : (1 - fb) + fb - 1 = 0 := by ring
    rw [h1]
    norm_num
  | some b =>
    have hpa : (0:ℚ) < da ^ (-2 : ℤ) := zpow_pos hda _
    have hpb : (0:ℚ) < db ^ (-2 : ℤ) := zpow_pos hdb _
    have hsw : (0:ℚ) < da ^ (-2 : ℤ) + db ^ (-2 : ℤ) := by linarith
    have hsum : da ^ (-2 : ℤ) / (da ^ (-2 : ℤ) + db ^ (-2 : ℤ))
        + db ^ (-2 : ℤ) / (da ^ (-2 : ℤ) + db ^ (-2 : ℤ)) = 1 := by
      rw [div_add_div_same, div_self hsw.ne']
    simp only [distweightRow]
    refine ⟨le_of_lt (div_pos hpa hsw), le_of_lt (div_pos hpb hsw), hsum, ?_⟩
    rw [hsum]
    norm_num

/-- Witness for `blend_weights_sum_one` at fb = 1/4, dA = 1, dB = 2. -/
theorem blend_weights_sum_one_witness :
    ((0:ℚ) ≤ 1/4 ∧ (1:ℚ)/4 ≤ 1 ∧ (0:ℚ) < 1 ∧ (0:ℚ) < 2) ∧
    (0 ≤ (distweightRow (-2) (1/4) (some 1) (some 2) (some 3) (some 4)
        none).wA ∧
    0 ≤ (distweightRow (-2) (1/4) (some 1) (some 2) (some 3) (some 4)
        none).wB ∧
    (distweightRow (-2) (1/4) (some 1) (some 2) (some 3) (some 4) none).wA
      + (distweightRow (-2) (1/4) (some 1) (some 2) (some 3) (some 4)
        none).wB = 1 ∧
    |(distweightRow (-2) (1/4) (some 1) (some 2) (some 3) (some 4) none).wA
      + (distweightRow (-2) (1/4) (some 1) (some 2) (some 3) (some 4)
        none).wB - 1| ≤ 1 / 1000000000) :=
  ⟨by norm_num,
   blend_weights_sum_one (1/4) 1 2 3 (some 4) none (by norm_num) (by norm_num)
     (by norm_num) (by norm_num)⟩

/-- **C6**: when the PurpleAir network has no valid estimate at a query point
(its value column is NaN), the blend substitutes the configured constant
fallback weight 1/4 for the PurpleAir slot, keeps the AirNow weight at
1 - 1/4 = 3/4 (it is not renormalised to 1), and the fused value still
carries the constant-weighted PurpleAir-slot contribution — which, per spec
§7, degrades to the pass-through of the model value. -/
theorem fallback_weight_substituted (dA dB : Option ℚ) (a mv : ℚ) :
    (distweightRow (-2) (1/4) dA dB (some a) none (some mv)).wB = 1/4 ∧
    (distweightRow (-2) (1/4) dA dB (some a) none (some mv)).wA = 1 - 1/4 ∧
    (distweightRow (-2) (1/4) dA dB (some a) none (some mv)).fused
      = some ((1 - 1/4) * a + (1/4) * mv) :=
  ⟨rfl, rfl, rfl⟩

/-- **C9**: the target query surface contains exactly the model-grid rows
whose model value is not NaN: pm.py:100's self-equality query keeps a row iff
its model value column is present. -/
theorem target_filters_nan (g : Grid) (r : Row) :
    r ∈ buildTgt g ↔ r ∈ g.df ∧ (getCol r g.name).isSome = true := by
  simp [buildTgt, List.mem_filter]

/-- **C8**: if any of the three output paths already exists and the overwrite
flag is not given, the script raises an `IOError` naming the existing paths;
the error is the same whatever the model, observations or fusion engines are
(nothing is retrieved or computed first); with the overwrite flag the run
proceeds normally. -/
theorem existing_outputs_raise (existing : List String) (stem fmt : String)
    (fs fs' : Fusions) (g g' : Grid) (pd pd' : ℚ)
    (model model' obskey obskey' : String) (an an' pa pa' : Df)
    (cv cv' : Bool)
    (h : ∃ q ∈ outPaths stem fmt, q ∈ existing) :
    runScript existing stem fmt false fs g pd model obskey an pa cv
      = Except.error ("Outputs exist; delete or use -O to continue:\n"
          ++ String.intercalate " "
            ((outPaths stem fmt).filter fun q => existing.contains q)) ∧
    runScript existing stem fmt false fs g pd model obskey an pa cv
      = runScript existing stem fmt false fs' g' pd' model' obskey' an' pa'
          cv' ∧
    runScript existing stem fmt true fs g pd model obskey an pa cv
      = Except.ok (runPipeline fs g pd model obskey an pa cv) := by
  obtain ⟨q, hq, hqe⟩ := h
  have hmem : q ∈ (outPaths stem fmt).filter fun q => existing.contains q := by
    rw [List.mem_filter]
    exact ⟨hq, List.elem_eq_true_of_mem hqe⟩
  have hlen :
      0 < ((outPaths stem fmt).filter fun q => existing.contains q).length :=
    List.length_pos_of_mem hmem
  refine ⟨?_, ?_, ?_⟩
  · simp only [runScript]
    rw [if_pos ⟨hlen, trivial⟩]
  · simp only [runScript]
    rw [if_pos ⟨hlen, trivial⟩, if_pos ⟨hlen, trivial⟩]
  · simp [runScript]

/-- Witness for `existing_outputs_raise`: the AirNow CV path already exists. -/
theorem existing_outputs_raise_witness :
    (∃ q ∈ outPaths "S" "csv", q ∈ ["S_AirNow_CV.csv"]) ∧
    (runScript ["S_AirNow_CV.csv"] "S" "csv" false cFS cGrid (5/2) "NAQFC"
        "pm25" cAndf cPadf true
      = Except.error ("Outputs exist; delete or use -O to continue:\n"
          ++ String.intercalate " "
            ((outPaths "S" "csv").filter
              fun q => ["S_AirNow_CV.csv"].contains q)) ∧
    runScript ["S_AirNow_CV.csv"] "S" "csv" false cFS cGrid (5/2) "NAQFC"
        "pm25" cAndf cPadf true
      = runScript ["S_AirNow_CV.csv"] "S" "csv" false cFS cGrid (5/2) "NAQFC"
          "pm25" cAndf cPadf true ∧
    runScript ["S_AirNow_CV.csv"] "S" "csv" true cFS cGrid (5/2) "NAQFC"
        "pm25" cAndf cPadf true
      = Except.ok (runPipeline cFS cGrid (5/2) "NAQFC" "pm25" cAndf cPadf
          true)) :=
  ⟨by decide,
   existing_outputs_raise ["S_AirNow_CV.csv"] "S" "csv" cFS cFS cGrid cGrid
     (5/2) (5/2) "NAQFC" "NAQFC" "pm25" "pm25" cAndf cAndf cPadf cPadf true
     true (by decide)⟩

/-- **C5** (counterexample): the claim "each fusion method and each
distweight blend returns a new result view, leaving the input DataFrames
unchanged" fails on the code: pm.py:130-133 discards `distweight`'s return
value, yet the `FUSED_aVNA` column is present in `andf` when it is written at
pm.py:147 — the blend enriches the table it is given.  Concretely, the blend
applied to `c5df` yields a table whose `FUSED_aVNA` column differs from
`c5df`'s. -/
theorem distweight_changes_table :
    (distweight c5df "LOO_VNA_AN_DIST" "LOO_VNA_PA_DIST_ADJ" "LOO_aVNA_AN"
      "LOO_aVNA_PA" "NAQFC" "FUSED_aVNA" (-2) (1/4)).map
        (fun r => (getCol r "FUSED_aVNA").isSome)
      ≠ c5df.map (fun r => (getCol r "FUSED_aVNA").isSome) := by decide

/-- **C5** (amended): the fusion and blend steps enrich the tables in place
by writing their own result columns; they leave the value of every other
column of every row unchanged. -/
theorem steps_preserve_other_columns (df : Df)
    (dkA dkB vkA vkB mk yk dk adjk k : String) (p : ℤ) (fb pd : ℚ)
    (hky : k ≠ yk) (hkadj : k ≠ adjk) :
    (distweight df dkA dkB vkA vkB mk yk p fb).map (fun r => getCol r k)
      = df.map (fun r => getCol r k) ∧
    (adjustPA dk adjk pd df).map (fun r => getCol r k)
      = df.map (fun r => getCol r k) :=
  ⟨distweight_col df dkA dkB vkA vkB mk yk p fb k hky,
   adjustPA_col dk adjk pd df k hkadj⟩

/-- Witness for `steps_preserve_other_columns` on `c5df` at column `NAQFC`. -/
theorem steps_preserve_other_columns_witness :
    (("NAQFC" : String) ≠ "FUSED_aVNA" ∧ ("NAQFC" : String) ≠ "X_ADJ") ∧
    ((distweight c5df "LOO_VNA_AN_DIST" "LOO_VNA_PA_DIST_ADJ" "LOO_aVNA_AN"
        "LOO_aVNA_PA" "NAQFC" "FUSED_aVNA" (-2) (1/4)).map
          (fun r => getCol r "NAQFC")
        = c5df.map (fun r => getCol r "NAQFC") ∧
      (adjustPA "LOO_VNA_PA_DIST" "X_ADJ" (5/2) c5df).map
          (fun r => getCol r "NAQFC")
        = c5df.map (fun r => getCol r "NAQFC")) :=
  ⟨⟨by decide, by decide⟩,
   steps_preserve_other_columns c5df "LOO_VNA_AN_DIST" "LOO_VNA_PA_DIST_ADJ"
     "LOO_aVNA_AN" "LOO_aVNA_PA" "NAQFC" "FUSED_aVNA" "LOO_VNA_PA_DIST"
     "X_ADJ" "NAQFC" (-2) (1/4) (5/2) (by decide) (by decide)⟩

/-- **C3** (counterexample): the claim that each variant blended on the LOO
table — `FUSED_aVNA`, `FUSED_eVNA`, `FUSED_aIDW` — is also blended on the
target grid fails: in a concrete non-CV-only run the AirNow CV table carries
a `FUSED_eVNA` value, while the fused target table has no `FUSED_eVNA`
column at all (pm.py:150-166 blends only aVNA and aIDW on the target). -/
theorem evna_missing_on_target :
    cOut.ancsv.map (fun r => (getCol r "FUSED_eVNA").isSome) = [true] ∧
    (cOut.fused.getD []).map (fun r => getCol r "FUSED_eVNA") = [none] := by
  decide

/-- **C3** (amended): the aVNA and aIDW variants are blended both on the LOO
table and on the target grid; the eVNA variant is blended only on the LOO
table — the target-grid pass never writes `FUSED_eVNA`, while the LOO pass
sets it to the eVNA blend of each row. -/
theorem blend_coverage (model : String) (pd : ℚ) (df : Df)
    (hm : model ≠ "FUSED_aVNA") :
    (tgtBlends model pd df).map (fun r => getCol r "FUSED_eVNA")
      = df.map (fun r => getCol r "FUSED_eVNA") ∧
    ∀ r' ∈ looBlends model df, ∃ r, r ∈ df ∧
      getCol r' "FUSED_eVNA" = (distweightRow (-2) (1/4)
        (getCol r "LOO_VNA_AN_DIST") (getCol r "LOO_VNA_PA_DIST_ADJ")
        (getCol r "LOO_eVNA_AN") (getCol r "LOO_eVNA_PA")
        (getCol r model)).fused := by
  constructor
  · simp only [tgtBlends]
    rw [distweight_col _ _ _ _ _ _ _ _ _ _ (by decide),
      distweight_col _ _ _ _ _ _ _ _ _ _ (by decide),
      adjustPA_col _ _ _ _ _ (by decide)]
  · intro r' hr'
    simp only [looBlends, distweight, List.mem_map] at hr'
    obtain ⟨a, ⟨b, ⟨r0, hr0, rfl⟩, rfl⟩, rfl⟩ := hr'
    refine ⟨r0, hr0, ?_⟩
    rw [getCol_setCol_ne _ _ _ _ (by decide), getCol_setCol_same,
      getCol_setCol_ne _ _ _ _ (by decide),
      getCol_setCol_ne _ _ _ _ (by decide),
      getCol_setCol_ne _ _ _ _ (by decide),
      getCol_setCol_ne _ _ _ _ (by decide),
      getCol_setCol_ne _ _ _ _ hm]

/-- Witness for `blend_coverage` with model column `NAQFC` on `c5df`. -/
theorem blend_coverage_witness :
    (("NAQFC" : String) ≠ "FUSED_aVNA") ∧
    ((tgtBlends "NAQFC" (5/2) c5df).map (fun r => getCol r "FUSED_eVNA")
      = c5df.map (fun r => getCol r "FUSED_eVNA") ∧
    ∀ r' ∈ looBlends "NAQFC" c5df, ∃ r, r ∈ c5df ∧
      getCol r' "FUSED_eVNA" = (distweightRow (-2) (1/4)
        (getCol r "LOO_VNA_AN_DIST") (getCol r "LOO_VNA_PA_DIST_ADJ")
        (getCol r "LOO_eVNA_AN") (getCol r "LOO_eVNA_PA")
        (getCol r "NAQFC")).fused) :=
  ⟨by decide, blend_coverage "NAQFC" (5/2) c5df (by decide)⟩

/-- **C2**: with the cv_only flag the target table is `None`, the whole
full-grid pass is skipped and no fused surface is produced, while the AirNow
and PurpleAir LOO tables are still computed — identically to a non-CV run —
and written; without the flag the target table is built from the model grid
and a fused surface is produced. -/
theorem cv_only_skips_target (fs : Fusions) (g : Grid) (pd : ℚ)
    (model obskey : String) (andf padf : Df) :
    (runPipeline fs g pd model obskey andf padf true).fused = none ∧
    (runPipeline fs g pd model obskey andf padf true).ancsv
      = (runPipeline fs g pd model obskey andf padf false).ancsv ∧
    (runPipeline fs g pd model obskey andf padf true).pacsv
      = (runPipeline fs g pd model obskey andf padf false).pacsv ∧
    ((runPipeline fs g pd model obskey andf padf false).fused).isSome
      = true :=
  ⟨rfl, rfl, rfl, rfl⟩

/-- **C10**: both on the target grid and on the LOO table, the `FUSED_aIDW`
blend is computed from exactly the same VNA nearest-neighbour distance fields
as the `FUSED_aVNA` blend — `VNA_AN_DIST` and the floored `VNA_PA_DIST_ADJ`
on the target, `LOO_VNA_AN_DIST` and the floored `LOO_VNA_PA_DIST_ADJ` on the
LOO table; no IDW-specific distance enters any blend. -/
theorem aidw_uses_vna_distances (model : String) (pd : ℚ) (df : Df)
    (hm1 : model ≠ "FUSED_aVNA") (hm2 : model ≠ "FUSED_eVNA")
    (hm3 : model ≠ "VNA_PA_DIST_ADJ") :
    (∀ r' ∈ tgtBlends model pd df, ∃ r, r ∈ df ∧
      getCol r' "FUSED_aVNA" = (distweightRow (-2) (1/4)
        (getCol r "VNA_AN_DIST") ((getCol r "VNA_PA_DIST").map
          fun d => max d pd)
        (getCol r "aVNA_AN") (getCol r "aVNA_PA") (getCol r model)).fused ∧
      getCol r' "FUSED_aIDW" = (distweightRow (-2) (1/4)
        (getCol r "VNA_AN_DIST") ((getCol r "VNA_PA_DIST").map
          fun d => max d pd)
        (getCol r "aIDW_AN") (getCol r "aIDW_PA") (getCol r model)).fused) ∧
    (∀ r' ∈ looBlends model df, ∃ r, r ∈ df ∧
      getCol r' "FUSED_aVNA" = (distweightRow (-2) (1/4)
        (getCol r "LOO_VNA_AN_DIST") (getCol r "LOO_VNA_PA_DIST_ADJ")
        (getCol r "LOO_aVNA_AN") (getCol r "LOO_aVNA_PA")
        (getCol r model)).fused ∧
      getCol r' "FUSED_aIDW" = (distweightRow (-2) (1/4)
        (getCol r "LOO_VNA_AN_DIST") (getCol r "LOO_VNA_PA_DIST_ADJ")
        (getCol r "LOO_aIDW_AN") (getCol r "LOO_aIDW_PA")
        (getCol r model)).fused) := by
  constructor
  · intro r' hr'
    simp only [tgtBlends, adjustPA, distweight, List.mem_map] at hr'
    obtain ⟨a, ⟨b, ⟨r0, hr0, rfl⟩, rfl⟩, rfl⟩ := hr'
    refine ⟨r0, hr0, ?_, ?_⟩
    · simp only [getCol_setCol]
      simp [hm1, hm2, hm3]
    · simp only [getCol_setCol]
      simp [hm1, hm2, hm3]
  · intro r' hr'
    simp only [looBlends, distweight, List.mem_map] at hr'
    obtain ⟨a, ⟨b, ⟨r0, hr0, rfl⟩, rfl⟩, rfl⟩ := hr'
    refine ⟨r0, hr0, ?_, ?_⟩
    · simp only [getCol_setCol]
      simp [hm1, hm2, hm3]
    · simp only [getCol_setCol]
      simp [hm1, hm2, hm3]


/-- Witness for `aidw_uses_vna_distances` with model column `NAQFC`. -/
theorem aidw_uses_vna_distances_witness :
    (("NAQFC" : String) ≠ "FUSED_aVNA" ∧ ("NAQFC" : String) ≠ "FUSED_eVNA" ∧
      ("NAQFC" : String) ≠ "VNA_PA_DIST_ADJ") ∧
    ((∀ r' ∈ tgtBlends "NAQFC" (5/2) c10df, ∃ r, r ∈ c10df ∧
      getCol r' "FUSED_aVNA" = (distweightRow (-2) (1/4)
        (getCol r "VNA_AN_DIST") ((getCol r "VNA_PA_DIST").map
          fun d => max d (5/2))
        (getCol r "aVNA_AN") (getCol r "aVNA_PA") (getCol r "NAQFC")).fused ∧
      getCol r' "FUSED_aIDW" = (distweightRow (-2) (1/4)
        (getCol r "VNA_AN_DIST") ((getCol r "VNA_PA_DIST").map
          fun d => max d (5/2))
        (getCol r "aIDW_AN") (getCol r "aIDW_PA")
        (getCol r "NAQFC")).fused) ∧
    (∀ r' ∈ looBlends "NAQFC" c10df, ∃ r, r ∈ c10df ∧
      getCol r' "FUSED_aVNA" = (distweightRow (-2) (1/4)
        (getCol r "LOO_VNA_AN_DIST") (getCol r "LOO_VNA_PA_DIST_ADJ")
        (getCol r "LOO_aVNA_AN") (getCol r "LOO_aVNA_PA")
        (getCol r "NAQFC")).fused ∧
      getCol r' "FUSED_aIDW" = (distweightRow (-2) (1/4)
        (getCol r "LOO_VNA_AN_DIST") (getCol r "LOO_VNA_PA_DIST_ADJ")
        (getCol r "LOO_aIDW_AN") (getCol r "LOO_aIDW_PA")
        (getCol r "NAQFC")).fused)) :=
  ⟨⟨by decide, by decide, by decide⟩,
   aidw_uses_vna_distances "NAQFC" (5/2) c10df (by decide) (by decide)
     (by decide)⟩

/-- **C1**: the PurpleAir floor distance is `sqrt(dx^2 + dy^2)/2` for the
mean grid spacings dx, dy — expressed exactly over ℚ: `pamindist` is the
unique non-negative value whose square is `pamindistSq g` — and on every row
of the LOO table and of the fused target table the adjusted PurpleAir
distance equals `max(raw VNA PurpleAir distance, pamindist)`; in particular
whenever the raw distance is below the floor, the adjusted distance fed to
the blends equals the floor exactly. -/
theorem pa_floor_distance (fs : Fusions) (g : Grid) (pamindist : ℚ)
    (model obskey : String) (andf padf : Df) (cv_only : Bool)
    (h0 : 0 ≤ pamindist) (hsq : pamindist ^ 2 = pamindistSq g) :
    (∀ q : ℚ, 0 ≤ q → q ^ 2 = pamindistSq g → q = pamindist) ∧
    (∀ r' ∈ (runPipeline fs g pamindist model obskey andf padf
        cv_only).ancsv,
      getCol r' "LOO_VNA_PA_DIST_ADJ"
        = (getCol r' "LOO_VNA_PA_DIST").map (fun d => max d pamindist) ∧
      ∀ d, getCol r' "LOO_VNA_PA_DIST" = some d → d < pamindist →
        getCol r' "LOO_VNA_PA_DIST_ADJ" = some pamindist) ∧
    (∀ t, (runPipeline fs g pamindist model obskey andf padf
        cv_only).fused = some t →
      ∀ r' ∈ t,
        getCol r' "VNA_PA_DIST_ADJ"
          = (getCol r' "VNA_PA_DIST").map (fun d => max d pamindist) ∧
        ∀ d, getCol r' "VNA_PA_DIST" = some d → d < pamindist →
          getCol r' "VNA_PA_DIST_ADJ" = some pamindist) := by
  refine ⟨?_, ?_, ?_⟩
  · intro q hq hqsq
    have h2 : q ^ 2 - pamindist ^ 2 = 0 := by rw [hqsq, hsq]; ring
    have hz : (q - pamindist) * (q + pamindist) = 0 := by
      calc (q - pamindist) * (q + pamindist) = q ^ 2 - pamindist ^ 2 := by
            ring
        _ = 0 := h2
    rcases mul_eq_zero.mp hz with h | h
    · linarith
    · linarith
  · intro r' hr'
    rw [runPipeline_ancsv, pipelineAncsv_def] at hr'
    exact looBlends_adjust_floor model pamindist _ r' hr'
  · intro t ht r' hr'
    cases cv_only with
    | true =>
      rw [runPipeline_fused_true] at ht
      exact Option.noConfusion ht
    | false =>
      rw [runPipeline_fused_false] at ht
      rw [Option.map_eq_some'] at ht
      obtain ⟨u, _, ht2⟩ := ht
      subst ht2
      exact tgtBlends_floor model pamindist u r' hr'

/-- Witness for `pa_floor_distance` on the concrete grid with dx = 3, dy = 4,
whose floor distance is exactly 5/2. -/
theorem pa_floor_distance_witness :
    ((0:ℚ) ≤ 5/2 ∧ ((5:ℚ)/2) ^ 2 = pamindistSq cGrid) ∧
    ((∀ q : ℚ, 0 ≤ q → q ^ 2 = pamindistSq cGrid → q = 5/2) ∧
    (∀ r' ∈ (runPipeline cFS cGrid (5/2) "NAQFC" "pm25" cAndf cPadf
        false).ancsv,
      getCol r' "LOO_VNA_PA_DIST_ADJ"
        = (getCol r' "LOO_VNA_PA_DIST").map (fun d => max d (5/2)) ∧
      ∀ d, getCol r' "LOO_VNA_PA_DIST" = some d → d < 5/2 →
        getCol r' "LOO_VNA_PA_DIST_ADJ" = some (5/2)) ∧
    (∀ t, (runPipeline cFS cGrid (5/2) "NAQFC" "pm25" cAndf cPadf
        false).fused = some t →
      ∀ r' ∈ t,
        getCol r' "VNA_PA_DIST_ADJ"
          = (getCol r' "VNA_PA_DIST").map (fun d => max d (5/2)) ∧
        ∀ d, getCol r' "VNA_PA_DIST" = some d → d < 5/2 →
          getCol r' "VNA_PA_DIST_ADJ" = some (5/2))) :=
  ⟨⟨by norm_num, by norm_num [pamindistSq, meanDiff, cGrid]⟩,
   pa_floor_distance cFS cGrid (5/2) "NAQFC" "pm25" cAndf cPadf false
     (by norm_num) (by norm_num [pamindistSq, meanDiff, cGrid])⟩

/-- **C7**: the LOO tables are network-isolated.  Varying only the PurpleAir
observation table (and even the cv flag) leaves every AirNow-pass LOO column
of the written AirNow CV table unchanged — the AirNow estimates, errors and
distances are a function of the AirNow table alone; symmetrically, the
PurpleAir CV table is identical whatever the AirNow table is: PurpleAir's
leave-one-out never uses AirNow points as references. -/
theorem loo_network_isolation (fs : Fusions) (g : Grid) (pd : ℚ)
    (model obskey : String) (andf andf' padf padf' : Df) (cv cv' : Bool)
    (k : String) (hk : k ∈ anLooCols) :
    (runPipeline fs g pd model obskey andf padf cv).ancsv.map
        (fun r => getCol r k)
      = (runPipeline fs g pd model obskey andf padf' cv').ancsv.map
        (fun r => getCol r k) ∧
    (runPipeline fs g pd model obskey andf padf cv).pacsv
      = (runPipeline fs g pd model obskey andf' padf cv').pacsv := by
  constructor
  · rw [runPipeline_ancsv_anpass _ _ _ _ _ _ _ _ _ (anLoo_disjoint k hk),
        runPipeline_ancsv_anpass _ _ _ _ _ _ _ _ _ (anLoo_disjoint k hk)]
  · rw [runPipeline_pacsv, runPipeline_pacsv]

/-- Witness for `loo_network_isolation` at column `LOO_VNA_AN`, comparing a
run against one with an emptied other-network table. -/
theorem loo_network_isolation_witness :
    (("LOO_VNA_AN" : String) ∈ anLooCols) ∧
    ((runPipeline cFS cGrid (5/2) "NAQFC" "pm25" cAndf cPadf false).ancsv.map
        (fun r => getCol r "LOO_VNA_AN")
      = (runPipeline cFS cGrid (5/2) "NAQFC" "pm25" cAndf [] true).ancsv.map
        (fun r => getCol r "LOO_VNA_AN") ∧
    (runPipeline cFS cGrid (5/2) "NAQFC" "pm25" cAndf cPadf false).pacsv
      = (runPipeline cFS cGrid (5/2) "NAQFC" "pm25" [] cPadf true).pacsv) :=
  ⟨by decide,
   loo_network_isolation cFS cGrid (5/2) "NAQFC" "pm25" cAndf [] cPadf []
     false true "LOO_VNA_AN" (by decide)⟩

end Airfuse
